import Mathlib

/-!
Shallow embedding of the acceleration-analysis engine in `speedSL.py`:
the two crossing locators (`find_crossing_time_with_interpolation`,
`find_nearest_value`) and the three measurement functions
(`calculate_speed_acceleration`, `calculate_rpm_acceleration`,
`calculate_distance_time`).  Floating-point values are modelled by `ℚ`.
-/

namespace SpeedSL

/-- An input row of the uploaded CSV: `Time [ms]`, `Vehicle Speed [km/h]`,
`Engine Speed (RPM) [1/min]`. -/
structure Row where
  timeMs : ℚ
  speed : ℚ
  rpm : ℚ
deriving DecidableEq

/-- A working sample after the `Time [s] = Time [ms] / 1000` conversion. -/
structure Samp where
  time : ℚ
  speed : ℚ
  rpm : ℚ
deriving DecidableEq

/-- Default sample used with `List.getD` (indices are always in range where used). -/
def d0 : Samp := ⟨0, 0, 0⟩

/-- The value channel selected by the `value_column` argument. -/
inductive Channel
  | speed
  | rpm
deriving DecidableEq

def chVal : Channel → Samp → ℚ
  | .speed, s => s.speed
  | .rpm, s => s.rpm

/-- The `direction` argument of the locators. -/
inductive Dir
  | up
  | down
deriving DecidableEq

/-- The `df_work['Time [s]'] = df_work['Time [ms]'] / 1000.0` step shared by all
three measurement functions. -/
def toWork (df : List Row) : List Samp :=
  df.map (fun r => ⟨r.timeMs / 1000, r.speed, r.rpm⟩)

/-- Index of the first element satisfying `p` (the `np.argmax(mask)` idiom,
guarded by `np.any(mask)`). -/
def firstIdx? {α : Type} (p : α → Bool) : List α → Option ℕ
  | [] => none
  | x :: xs => if p x then some 0 else (firstIdx? p xs).map (· + 1)

/-- The boolean mask used by both locators: `values >= target` for `up`,
`values <= target` for `down`. -/
def dirPred (dir : Dir) (target : ℚ) (ch : Channel) (s : Samp) : Bool :=
  match dir with
  | .up => decide (target ≤ chVal ch s)
  | .down => decide (chVal ch s ≤ target)

/-- The final interpolation step of `find_crossing_time_with_interpolation`
(lines 48-54): the flat-segment guard followed by
`fraction = (target - value_before) / (value_after - value_before)`. -/
def interpStep (target tb vb ta va : ℚ) : ℚ × ℚ × ℚ :=
  if va = vb then (tb, vb, va)
  else (tb + (target - vb) / (va - vb) * (ta - tb), vb, va)

/-- `find_crossing_time_with_interpolation(df, target_value, value_column,
time_column, direction)`, returning `(interpolated_time, value_before,
value_after)` or `None`. -/
def find_crossing_time_with_interpolation (df : List Samp) (target : ℚ)
    (ch : Channel) (dir : Dir) : Option (ℚ × ℚ × ℚ) :=
  match firstIdx? (dirPred dir target ch) df with
  | none => none
  | some 0 =>
      let s := df.getD 0 d0
      some (s.time, chVal ch s, chVal ch s)
  | some (i + 1) =>
      let sb := df.getD i d0
      let sa := df.getD (i + 1) d0
      some (interpStep target sb.time (chVal ch sb) sa.time (chVal ch sa))

/-- `find_nearest_value(df, target_value, value_column, time_column,
direction)`.  An empty frame raises an `IndexError` in the Python code, which
the calling measurement functions turn into `None`; it is modelled as `none`
here. -/
def find_nearest_value (df : List Samp) (target : ℚ)
    (ch : Channel) (dir : Dir) : Option (ℚ × ℚ × ℚ) :=
  if df = [] then none
  else
    match dir with
    | .up =>
      match firstIdx? (dirPred .up target ch) df with
      | none =>
          let s := df.getLastD d0
          some (s.time, chVal ch s, chVal ch s)
      | some 0 =>
          let s := df.getD 0 d0
          some (s.time, chVal ch s, chVal ch s)
      | some (i + 1) =>
          let sp := df.getD i d0
          let sc := df.getD (i + 1) d0
          if |chVal ch sp - target| < |chVal ch sc - target| then
            some (sp.time, chVal ch sp, chVal ch sp)
          else
            some (sc.time, chVal ch sc, chVal ch sc)
    | .down =>
      match firstIdx? (dirPred .down target ch) df with
      | none =>
          let s := df.getD 0 d0
          some (s.time, chVal ch s, chVal ch s)
      | some 0 =>
          let s := df.getD 0 d0
          some (s.time, chVal ch s, chVal ch s)
      | some (i + 1) =>
          let sp := df.getD i d0
          let sc := df.getD (i + 1) d0
          if |chVal ch sp - target| < |chVal ch sc - target| then
            some (sp.time, chVal ch sp, chVal ch sp)
          else
            some (sc.time, chVal ch sc, chVal ch sc)

/-- The `if use_interpolation: ... else: ...` dispatch shared by all three
measurement functions. -/
def locate (useI : Bool) (df : List Samp) (target : ℚ)
    (ch : Channel) (dir : Dir) : Option (ℚ × ℚ × ℚ) :=
  if useI then find_crossing_time_with_interpolation df target ch dir
  else find_nearest_value df target ch dir

/-- Per-pair trapezoid areas `avg(v_i, v_{i+1}) * (t_{i+1} - t_i)` with speeds
converted from km/h to m/s by `/ 3.6` (the `avg_speeds * time_diffs` array). -/
def segDists : List Samp → List ℚ
  | a :: b :: rest =>
      ((a.speed / (3.6 : ℚ) + b.speed / (3.6 : ℚ)) / 2 * (b.time - a.time)) :: segDists (b :: rest)
  | _ => []

/-- Running cumulative sums starting from `c` (the `np.cumsum` idiom). -/
def cumFrom (c : ℚ) : List ℚ → List ℚ
  | [] => []
  | x :: xs => (c + x) :: cumFrom (c + x) xs

/-- `np.cumsum(avg_speeds * time_diffs)` over a sample list. -/
def cumOf (l : List Samp) : List ℚ := cumFrom 0 (segDists l)

/-- `np.sum(avg_speeds * time_diffs)`: trapezoidal distance over a sample list. -/
def trap (l : List Samp) : ℚ := (segDists l).sum

/-- The `(time, speed)` pairs of a working series, as fed to `np.interp`. -/
def speedPts (l : List Samp) : List (ℚ × ℚ) := l.map (fun s => (s.time, s.speed))

/-- `np.interp(x, xp, fp)`: clamped piecewise-linear interpolation. -/
def np_interp (x : ℚ) : List (ℚ × ℚ) → ℚ
  | [] => 0
  | [(_, f0)] => f0
  | (x0, f0) :: (x1, f1) :: rest =>
      if x ≤ x0 then f0
      else if x ≤ x1 then f0 + (x - x0) * (f1 - f0) / (x1 - x0)
      else np_interp x ((x1, f1) :: rest)

/-- `df_work[df_work['Time [s]'] >= start_time]`. -/
def suffixOf (w : List Samp) (st : ℚ) : List Samp :=
  w.filter (fun s => decide (st ≤ s.time))

/-- `df_work[(Time >= start_time) & (Time <= end_time)]`. -/
def sliceOf (w : List Samp) (st et : ℚ) : List Samp :=
  w.filter (fun s => decide (st ≤ s.time) && decide (s.time ≤ et))

/-- Result record of `calculate_speed_acceleration` (the `filename` field is
constant and omitted). -/
structure SpeedResult where
  start_speed : ℚ
  end_speed : ℚ
  time : ℚ
  distance : ℚ
  avg_acceleration : ℚ
  start_time : ℚ
  end_time : ℚ
deriving DecidableEq

/-- Result record of `calculate_rpm_acceleration`. -/
structure RpmResult where
  start_rpm : ℚ
  end_rpm : ℚ
  start_speed : ℚ
  end_speed : ℚ
  time : ℚ
  distance : ℚ
  start_time : ℚ
  end_time : ℚ
deriving DecidableEq

/-- Result record of `calculate_distance_time`. -/
structure DistResult where
  start_speed : ℚ
  end_speed : ℚ
  distance : ℚ
  time : ℚ
  avg_speed : ℚ
  start_time : ℚ
  end_time : ℚ
deriving DecidableEq

/-- `calculate_speed_acceleration(df, speed_from, speed_to, use_interpolation)`. -/
def calculate_speed_acceleration (df : List Row) (speed_from speed_to : ℚ)
    (useI : Bool) : Option SpeedResult :=
  let w := toWork df
  match locate useI w speed_from .speed .up with
  | none => none
  | some (st, _sb, sa) =>
    let suffix := suffixOf w st
    if suffix = [] then none
    else
      match locate useI suffix speed_to .speed .up with
      | none => none
      | some (et, _eb, ea) =>
        let slice := sliceOf w st et
        if slice.length < 2 then none
        else
          let speeds := slice.map (fun s => s.speed / (3.6 : ℚ))
          let at_ := et - st
          some {
            start_speed := if useI then speed_from else sa
            end_speed := if useI then speed_to else ea
            time := at_
            distance := trap slice
            avg_acceleration :=
              if 0 < at_ then (speeds.getLastD 0 - speeds.headD 0) / at_ else 0
            start_time := st
            end_time := et }

/-- `calculate_rpm_acceleration(df, rpm_from, rpm_to, use_interpolation)`. -/
def calculate_rpm_acceleration (df : List Row) (rpm_from rpm_to : ℚ)
    (useI : Bool) : Option RpmResult :=
  let w := toWork df
  match locate useI w rpm_from .rpm .up with
  | none => none
  | some (st, _sb, sa) =>
    let suffix := suffixOf w st
    if suffix = [] then none
    else
      match locate useI suffix rpm_to .rpm .up with
      | none => none
      | some (et, _eb, ea) =>
        let slice := sliceOf w st et
        if slice.length < 2 then none
        else
          some {
            start_rpm := if useI then rpm_from else sa
            end_rpm := if useI then rpm_to else ea
            start_speed := np_interp st (speedPts w)
            end_speed := np_interp et (speedPts w)
            time := et - st
            distance := trap slice
            start_time := st
            end_time := et }

/-- The interpolation of the end time in `calculate_distance_time`
(lines 285-289): the zero-gap guard followed by
`fraction = (target_distance - dist_before) / (dist_after - dist_before)`. -/
def distInterpTime (target db da tb ta : ℚ) : ℚ :=
  if da = db then tb
  else tb + (target - db) / (da - db) * (ta - tb)

/-- `calculate_distance_time(df, start_speed, target_distance,
use_interpolation)`. -/
def calculate_distance_time (df : List Row) (start_speed target_distance : ℚ)
    (useI : Bool) : Option DistResult :=
  let w := toWork df
  match locate useI w start_speed .speed .up with
  | none => none
  | some (st, _sb, sa) =>
    let suffix := suffixOf w st
    if suffix.length < 2 then none
    else
      let cum := cumOf suffix
      match firstIdx? (fun x => decide (target_distance ≤ x)) cum with
      | none => none
      | some 0 => none
      | some (i + 1) =>
        let et := distInterpTime target_distance (cum.getD i 0) (cum.getD (i + 1) 0)
          ((suffix.getD (i + 1) d0).time) ((suffix.getD (i + 2) d0).time)
        let total := et - st
        some {
          start_speed := if useI then start_speed else sa
          end_speed := np_interp et (speedPts w)
          distance := target_distance
          time := total
          avg_speed := if 0 < total then target_distance / total * (3.6 : ℚ) else 0
          start_time := st
          end_time := et }

/-- Constant-speed demo series: 50 km/h at t = 0, 1, ..., 10 s. -/
def constDf : List Row :=
  [⟨0, 50, 0⟩, ⟨1000, 50, 0⟩, ⟨2000, 50, 0⟩, ⟨3000, 50, 0⟩, ⟨4000, 50, 0⟩,
   ⟨5000, 50, 0⟩, ⟨6000, 50, 0⟩, ⟨7000, 50, 0⟩, ⟨8000, 50, 0⟩, ⟨9000, 50, 0⟩,
   ⟨10000, 50, 0⟩]

/-- Linearly accelerating demo series: speed 36·t km/h, rpm 500·t, t = 0..10 s. -/
def linDf : List Row :=
  [⟨0, 0, 0⟩, ⟨1000, 36, 500⟩, ⟨2000, 72, 1000⟩, ⟨3000, 108, 1500⟩,
   ⟨4000, 144, 2000⟩, ⟨5000, 180, 2500⟩, ⟨6000, 216, 3000⟩, ⟨7000, 252, 3500⟩,
   ⟨8000, 288, 4000⟩, ⟨9000, 324, 4500⟩, ⟨10000, 360, 5000⟩]

/-- Staircase demo series for the locator: value 10·t at t = 0..10. -/
def demoS : List Samp :=
  [⟨0, 0, 0⟩, ⟨1, 10, 0⟩, ⟨2, 20, 0⟩, ⟨3, 30, 0⟩, ⟨4, 40, 0⟩, ⟨5, 50, 0⟩,
   ⟨6, 60, 0⟩, ⟨7, 70, 0⟩, ⟨8, 80, 0⟩, ⟨9, 90, 0⟩, ⟨10, 100, 0⟩]

/-- The result of `calculate_speed_acceleration linDf 36 72 true`. -/
def linSpeedRes : SpeedResult := ⟨36, 72, 1, 15, 10, 1, 2⟩

/-- The result of `calculate_rpm_acceleration linDf 1000 2000 true`. -/
def linRpmRes : RpmResult := ⟨1000, 2000, 72, 144, 2, 60, 2, 4⟩

/-- The result of `calculate_distance_time linDf 36 16 true`. -/
def linDistRes : DistResult := ⟨36, 1836 / 25, 16, 26 / 25, 720 / 13, 1, 51 / 25⟩

/-! ### Helper lemmas about `firstIdx?`, indexing and sortedness -/

theorem firstIdx?_cons {α : Type} (p : α → Bool) (x : α) (xs : List α) :
    firstIdx? p (x :: xs) = if p x then some 0 else (firstIdx? p xs).map (· + 1) :=
  rfl

theorem firstIdx?_lt_length {α : Type} {p : α → Bool} {l : List α} {i : ℕ}
    (h : firstIdx? p l = some i) : i < l.length := by
  induction l generalizing i with
  | nil => simp [firstIdx?] at h
  | cons x xs ih =>
    rw [firstIdx?_cons] at h
    by_cases hp : p x = true
    · rw [if_pos hp] at h
      obtain rfl := (Option.some.inj h).symm
      simp
    · rw [if_neg hp] at h
      obtain ⟨j, hj, rfl⟩ := Option.map_eq_some'.mp h
      simpa using Nat.succ_lt_succ (ih hj)

theorem firstIdx?_sat {α : Type} {p : α → Bool} {l : List α} {i : ℕ} (d : α)
    (h : firstIdx? p l = some i) : p (l.getD i d) = true := by
  induction l generalizing i with
  | nil => simp [firstIdx?] at h
  | cons x xs ih =>
    rw [firstIdx?_cons] at h
    by_cases hp : p x = true
    · rw [if_pos hp] at h
      obtain rfl := (Option.some.inj h).symm
      simpa using hp
    · rw [if_neg hp] at h
      obtain ⟨j, hj, rfl⟩ := Option.map_eq_some'.mp h
      simpa using ih hj

theorem firstIdx?_min {α : Type} {p : α → Bool} {l : List α} {i : ℕ} (d : α)
    (h : firstIdx? p l = some i) {j : ℕ} (hj : j < i) : p (l.getD j d) = false := by
  induction l generalizing i j with
  | nil => simp [firstIdx?] at h
  | cons x xs ih =>
    rw [firstIdx?_cons] at h
    by_cases hp : p x = true
    · rw [if_pos hp] at h
      obtain rfl := (Option.some.inj h).symm
      omega
    · rw [if_neg hp] at h
      obtain ⟨k, hk, rfl⟩ := Option.map_eq_some'.mp h
      cases j with
      | zero => simpa using hp
      | succ j' => simpa using ih hk (Nat.lt_of_succ_lt_succ hj)

theorem firstIdx?_eq_none_iff {α : Type} {p : α → Bool} {l : List α} :
    firstIdx? p l = none ↔ ∀ x ∈ l, p x = false := by
  induction l with
  | nil => simp [firstIdx?]
  | cons x xs ih =>
    rw [firstIdx?_cons]
    by_cases hp : p x = true
    · rw [if_pos hp]
      simp only [List.forall_mem_cons]
      constructor
      · intro hc
        exact absurd hc (by simp)
      · rintro ⟨hx, -⟩
        rw [hp] at hx
        exact absurd hx (by simp)
    · rw [if_neg hp]
      have hpf : p x = false := by simpa using hp
      simp [Option.map_eq_none', ih, hpf]

theorem getD_mem {α : Type} {l : List α} {i : ℕ} (h : i < l.length) (d : α) :
    l.getD i d ∈ l := by
  rw [l.getD_eq_getElem d h]
  exact List.getElem_mem h

theorem getLastD_mem {α : Type} : ∀ (l : List α), l ≠ [] → ∀ d : α, l.getLastD d ∈ l
  | [], h, _ => absurd rfl h
  | [x], _, d => by simp [List.getLastD]
  | x :: y :: ys, _, d => by
      have hmem := getLastD_mem (y :: ys) (List.cons_ne_nil y ys) x
      rw [List.getLastD_cons]
      exact List.mem_cons_of_mem x hmem

theorem pairwise_time_getD {l : List Samp}
    (hs : l.Pairwise (fun a b => a.time ≤ b.time))
    {i j : ℕ} (hij : i < j) (hj : j < l.length) :
    (l.getD i d0).time ≤ (l.getD j d0).time := by
  have hi : i < l.length := lt_trans hij hj
  rw [l.getD_eq_getElem d0 hi, l.getD_eq_getElem d0 hj]
  exact List.pairwise_iff_getElem.mp hs i j hi hj hij

theorem mem_suffixOf_time_ge {w : List Samp} {st : ℚ} {s : Samp}
    (h : s ∈ suffixOf w st) : st ≤ s.time := by
  simp only [suffixOf, List.mem_filter, decide_eq_true_eq] at h
  exact h.2

theorem suffixOf_pairwise {w : List Samp} (st : ℚ)
    (hs : w.Pairwise (fun a b => a.time ≤ b.time)) :
    (suffixOf w st).Pairwise (fun a b => a.time ≤ b.time) :=
  hs.filter _

theorem segDists_length (l : List Samp) : (segDists l).length = l.length - 1 := by
  induction l with
  | nil => simp [segDists]
  | cons a t ih =>
    cases t with
    | nil => simp [segDists]
    | cons b r =>
      simp only [segDists, List.length_cons] at ih ⊢
      omega

theorem cumFrom_length (c : ℚ) (l : List ℚ) : (cumFrom c l).length = l.length := by
  induction l generalizing c with
  | nil => simp [cumFrom]
  | cons x xs ih => simp [cumFrom, ih]

theorem cumOf_length (l : List Samp) : (cumOf l).length = l.length - 1 := by
  simp [cumOf, cumFrom_length, segDists_length]

theorem toWork_pairwise {df : List Row}
    (hs : df.Pairwise (fun a b => a.timeMs ≤ b.timeMs)) :
    (toWork df).Pairwise (fun a b => a.time ≤ b.time) := by
  unfold toWork
  rw [List.pairwise_map]
  refine hs.imp ?_
  intro a b hab
  simpa using div_le_div_of_nonneg_right hab (by norm_num)

theorem find_nearest_mem_time {df : List Samp} {target : ℚ} {ch : Channel} {dir : Dir}
    {t vb va : ℚ} (h : find_nearest_value df target ch dir = some (t, vb, va)) :
    ∃ s ∈ df, s.time = t := by
  unfold find_nearest_value at h
  by_cases hl : df = []
  · rw [if_pos hl] at h
    exact absurd h (by simp)
  · rw [if_neg hl] at h
    have hlen : 0 < df.length := List.length_pos.mpr hl
    cases dir with
    | up =>
      cases hfx : firstIdx? (dirPred .up target ch) df with
      | none =>
        rw [hfx] at h
        simp only [Option.some.injEq, Prod.mk.injEq] at h
        exact ⟨df.getLastD d0, getLastD_mem df hl d0, h.1⟩
      | some i =>
        rw [hfx] at h
        have hil := firstIdx?_lt_length hfx
        cases i with
        | zero =>
          simp only [Option.some.injEq, Prod.mk.injEq] at h
          exact ⟨df.getD 0 d0, getD_mem hlen d0, h.1⟩
        | succ i =>
          simp only [] at h
          by_cases hcmp : |chVal ch (df.getD i d0) - target| < |chVal ch (df.getD (i + 1) d0) - target|
          · rw [if_pos hcmp] at h
            simp only [Option.some.injEq, Prod.mk.injEq] at h
            exact ⟨df.getD i d0, getD_mem (lt_trans (Nat.lt_succ_self i) hil) d0, h.1⟩
          · rw [if_neg hcmp] at h
            simp only [Option.some.injEq, Prod.mk.injEq] at h
            exact ⟨df.getD (i + 1) d0, getD_mem hil d0, h.1⟩
    | down =>
      cases hfx : firstIdx? (dirPred .down target ch) df with
      | none =>
        rw [hfx] at h
        simp only [Option.some.injEq, Prod.mk.injEq] at h
        exact ⟨df.getD 0 d0, getD_mem hlen d0, h.1⟩
      | some i =>
        rw [hfx] at h
        have hil := firstIdx?_lt_length hfx
        cases i with
        | zero =>
          simp only [Option.some.injEq, Prod.mk.injEq] at h
          exact ⟨df.getD 0 d0, getD_mem hlen d0, h.1⟩
        | succ i =>
          simp only [] at h
          by_cases hcmp : |chVal ch (df.getD i d0) - target| < |chVal ch (df.getD (i + 1) d0) - target|
          · rw [if_pos hcmp] at h
            simp only [Option.some.injEq, Prod.mk.injEq] at h
            exact ⟨df.getD i d0, getD_mem (lt_trans (Nat.lt_succ_self i) hil) d0, h.1⟩
          · rw [if_neg hcmp] at h
            simp only [Option.some.injEq, Prod.mk.injEq] at h
            exact ⟨df.getD (i + 1) d0, getD_mem hil d0, h.1⟩

theorem crossing_bracket_lt {df : List Samp} {target : ℚ} {ch : Channel} {i : ℕ}
    (hfx : firstIdx? (dirPred .up target ch) df = some (i + 1)) :
    chVal ch (df.getD i d0) < target ∧ target ≤ chVal ch (df.getD (i + 1) d0) := by
  have hb := firstIdx?_min d0 hfx (Nat.lt_succ_self i)
  have ha := firstIdx?_sat d0 hfx
  simp only [dirPred, decide_eq_true_eq] at ha
  simp only [dirPred, decide_eq_false_iff_not, not_le] at hb
  exact ⟨hb, ha⟩

theorem find_crossing_up_ge {df : List Samp} {target c : ℚ} {ch : Channel}
    (hall : ∀ s ∈ df, c ≤ s.time)
    (hsort : df.Pairwise (fun a b => a.time ≤ b.time))
    {t vb va : ℚ}
    (h : find_crossing_time_with_interpolation df target ch .up = some (t, vb, va)) :
    c ≤ t := by
  unfold find_crossing_time_with_interpolation at h
  cases hfx : firstIdx? (dirPred .up target ch) df with
  | none =>
    rw [hfx] at h
    exact absurd h (by simp)
  | some i =>
    rw [hfx] at h
    have hil := firstIdx?_lt_length hfx
    cases i with
    | zero =>
      simp only [Option.some.injEq, Prod.mk.injEq] at h
      exact h.1 ▸ hall _ (getD_mem hil d0)
    | succ i =>
      have hi : i < df.length := lt_trans (Nat.lt_succ_self i) hil
      have htb : c ≤ (df.getD i d0).time := hall _ (getD_mem hi d0)
      have hta : (df.getD i d0).time ≤ (df.getD (i + 1) d0).time :=
        pairwise_time_getD hsort (Nat.lt_succ_self i) hil
      rw [Option.some.injEq] at h
      unfold interpStep at h
      by_cases hv : chVal ch (df.getD (i + 1) d0) = chVal ch (df.getD i d0)
      · rw [if_pos hv] at h
        obtain ⟨ht, -, -⟩ := Prod.mk.injEq .. ▸ h
        exact ht ▸ htb
      · rw [if_neg hv] at h
        obtain ⟨ht, -, -⟩ := Prod.mk.injEq .. ▸ h
        obtain ⟨hlt, hge⟩ := crossing_bracket_lt hfx
        have h1 : 0 < target - chVal ch (df.getD i d0) := by linarith
        have h2 : 0 < chVal ch (df.getD (i + 1) d0) - chVal ch (df.getD i d0) := by linarith
        have hfrac : 0 ≤ (target - chVal ch (df.getD i d0)) /
            (chVal ch (df.getD (i + 1) d0) - chVal ch (df.getD i d0)) :=
          div_nonneg (le_of_lt h1) (le_of_lt h2)
        have hmul : 0 ≤ (target - chVal ch (df.getD i d0)) /
            (chVal ch (df.getD (i + 1) d0) - chVal ch (df.getD i d0)) *
            ((df.getD (i + 1) d0).time - (df.getD i d0).time) :=
          mul_nonneg hfrac (by linarith)
        rw [← ht]
        linarith

theorem locate_up_ge (useI : Bool) {df : List Samp} {target c : ℚ} {ch : Channel}
    (hall : ∀ s ∈ df, c ≤ s.time)
    (hsort : df.Pairwise (fun a b => a.time ≤ b.time))
    {t vb va : ℚ} (h : locate useI df target ch .up = some (t, vb, va)) : c ≤ t := by
  cases useI with
  | true => exact find_crossing_up_ge hall hsort (by simpa [locate] using h)
  | false =>
    have h' : find_nearest_value df target ch .up = some (t, vb, va) := by
      simpa [locate] using h
    obtain ⟨s, hs, rfl⟩ := find_nearest_mem_time h'
    exact hall s hs

/-- C9: in `calculate_distance_time` the `distance` field of every returned
result equals the requested `target_distance` exactly; it is not recomputed
from the integration. -/
theorem C9_distance_field_is_target (df : List Row) (s d : ℚ) (b : Bool)
    (r : DistResult) (h : calculate_distance_time df s d b = some r) :
    r.distance = d := by
  unfold calculate_distance_time at h
  simp only [] at h
  split at h
  · exact absurd h (by simp)
  · split at h
    · exact absurd h (by simp)
    · split at h
      · exact absurd h (by simp)
      · exact absurd h (by simp)
      · obtain rfl := Option.some.inj h
        rfl

/-- C9 witness: a concrete measured run on the linear demo series returns
`distance = 16`, the requested target. -/
theorem C9_witness :
    calculate_distance_time linDf 36 16 true = some linDistRes ∧
    linDistRes.distance = 16 := by
  have h : calculate_distance_time linDf 36 16 true = some linDistRes := by
    norm_num [calculate_distance_time, locate, find_crossing_time_with_interpolation,
      firstIdx?, dirPred, chVal, interpStep, toWork, linDf, suffixOf, sliceOf,
      List.filter_cons, segDists, cumFrom, cumOf, trap, np_interp, speedPts,
      distInterpTime, d0, linDistRes]
  exact ⟨h, C9_distance_field_is_target linDf 36 16 true linDistRes h⟩

/-- C1 counterexample: on the constant-speed series (50 km/h at t = 0..10 s),
`calculate_speed_acceleration` with `speed_from = speed_to = 50` and
interpolation enabled returns `none` (NotFound), not a result with
`elapsedTime = 0` and `distance = 0`: the inclusive `[startTime, endTime]`
slice degenerates to the single sample at t = 0 and fails the two-sample
requirement. -/
theorem C1_counterexample :
    calculate_speed_acceleration constDf 50 50 true = none := by
  norm_num [calculate_speed_acceleration, locate, find_crossing_time_with_interpolation,
    firstIdx?, dirPred, chVal, interpStep, toWork, constDf, suffixOf, sliceOf,
    List.filter_cons, d0]

/-- C1 (amended): for the constant-speed series and `fromValue = toValue = 50`
the threshold-to-threshold speed measurement returns NotFound in both
precision modes, because both boundary searches resolve to the first sample
and the degenerate slice `[0, 0]` holds a single sample, below the required
two. -/
theorem C1_amended_notfound (b : Bool) :
    calculate_speed_acceleration constDf 50 50 b = none := by
  cases b
  · norm_num [calculate_speed_acceleration, locate, find_nearest_value,
      firstIdx?, dirPred, chVal, toWork, constDf, suffixOf, sliceOf,
      List.filter_cons, d0, List.cons_ne_nil]
  · exact C1_counterexample

/-- C3: interpolated-mode locate returns NotFound when no sample satisfies the
direction's comparison; returns the first sample's own time and value when the
first qualifying index is 0; otherwise returns the time linearly interpolated
between the bracketing samples with
`fraction = (target - valueBefore) / (valueAfter - valueBefore)` together with
the two bracketing values.  On the staircase series {0,10,...,100} at times
{0,...,10}, target 25 going up yields time 2.5, valueBefore 20,
valueAfter 30. -/
theorem C3_interpolated_locate :
    (∀ (df : List Samp) (target : ℚ) (ch : Channel) (dir : Dir),
      ((∀ s ∈ df, dirPred dir target ch s = false) →
        find_crossing_time_with_interpolation df target ch dir = none) ∧
      (firstIdx? (dirPred dir target ch) df = some 0 →
        find_crossing_time_with_interpolation df target ch dir =
          some ((df.getD 0 d0).time, chVal ch (df.getD 0 d0), chVal ch (df.getD 0 d0))) ∧
      (∀ i : ℕ, firstIdx? (dirPred dir target ch) df = some (i + 1) →
        find_crossing_time_with_interpolation df target ch dir =
          some ((df.getD i d0).time +
              (target - chVal ch (df.getD i d0)) /
                (chVal ch (df.getD (i + 1) d0) - chVal ch (df.getD i d0)) *
                ((df.getD (i + 1) d0).time - (df.getD i d0).time),
            chVal ch (df.getD i d0), chVal ch (df.getD (i + 1) d0)))) ∧
    find_crossing_time_with_interpolation demoS 25 .speed .up = some (5 / 2, 20, 30) := by
  constructor
  · intro df target ch dir
    refine ⟨?_, ?_, ?_⟩
    · intro hall
      have hnone : firstIdx? (dirPred dir target ch) df = none :=
        firstIdx?_eq_none_iff.mpr hall
      unfold find_crossing_time_with_interpolation
      rw [hnone]
    · intro h0
      unfold find_crossing_time_with_interpolation
      rw [h0]
    · intro i hi
      unfold find_crossing_time_with_interpolation
      rw [hi]
      simp only [interpStep]
      by_cases hv : chVal ch (df.getD (i + 1) d0) = chVal ch (df.getD i d0)
      · rw [if_pos hv, hv]
        norm_num
      · rw [if_neg hv]
  · norm_num [find_crossing_time_with_interpolation, firstIdx?, dirPred, chVal,
      interpStep, demoS, d0]

/-- C3 witness: the no-qualifying-sample case returns NotFound on the
staircase series for a target above the maximum. -/
theorem C3_witness :
    find_crossing_time_with_interpolation demoS 200 .speed .up = none :=
  (C3_interpolated_locate.1 demoS 200 .speed .up).1 (by
    intro s hs
    fin_cases hs <;> norm_num [dirPred, chVal])

/-- C2: for every non-empty series, nearest-mode locate never returns
NotFound; with direction up it clamps to the last sample when no value
reaches the target and otherwise returns, of the two samples bracketing the
crossing index, the one closer in absolute distance to the target with ties
resolved to the crossing-index sample; with direction down it falls back to
the first sample when no value is at or below the target. -/
theorem C2_nearest_locate :
    ∀ df : List Samp, df ≠ [] → ∀ (target : ℚ) (ch : Channel),
      (find_nearest_value df target ch .up ≠ none ∧
        find_nearest_value df target ch .down ≠ none) ∧
      ((∀ s ∈ df, chVal ch s < target) →
        find_nearest_value df target ch .up =
          some ((df.getLastD d0).time, chVal ch (df.getLastD d0),
            chVal ch (df.getLastD d0))) ∧
      ((∀ s ∈ df, target < chVal ch s) →
        find_nearest_value df target ch .down =
          some ((df.getD 0 d0).time, chVal ch (df.getD 0 d0),
            chVal ch (df.getD 0 d0))) ∧
      (firstIdx? (dirPred .up target ch) df = some 0 →
        find_nearest_value df target ch .up =
          some ((df.getD 0 d0).time, chVal ch (df.getD 0 d0),
            chVal ch (df.getD 0 d0))) ∧
      (∀ i : ℕ, firstIdx? (dirPred .up target ch) df = some (i + 1) →
        (|chVal ch (df.getD i d0) - target| < |chVal ch (df.getD (i + 1) d0) - target| →
          find_nearest_value df target ch .up =
            some ((df.getD i d0).time, chVal ch (df.getD i d0),
              chVal ch (df.getD i d0))) ∧
        (|chVal ch (df.getD (i + 1) d0) - target| ≤ |chVal ch (df.getD i d0) - target| →
          find_nearest_value df target ch .up =
            some ((df.getD (i + 1) d0).time, chVal ch (df.getD (i + 1) d0),
              chVal ch (df.getD (i + 1) d0)))) := by
  intro df hne target ch
  refine ⟨⟨?_, ?_⟩, ?_, ?_, ?_, ?_⟩
  · unfold find_nearest_value
    rw [if_neg hne]
    cases hfx : firstIdx? (dirPred .up target ch) df with
    | none => simp
    | some i =>
      cases i with
      | zero => simp
      | succ i =>
        simp only []
        split <;> simp
  · unfold find_nearest_value
    rw [if_neg hne]
    cases hfx : firstIdx? (dirPred .down target ch) df with
    | none => simp
    | some i =>
      cases i with
      | zero => simp
      | succ i =>
        simp only []
        split <;> simp
  · intro hall
    have hnone : firstIdx? (dirPred .up target ch) df = none := by
      refine firstIdx?_eq_none_iff.mpr ?_
      intro x hx
      simp only [dirPred, decide_eq_false_iff_not, not_le]
      exact hall x hx
    unfold find_nearest_value
    rw [if_neg hne, hnone]
  · intro hall
    have hnone : firstIdx? (dirPred .down target ch) df = none := by
      refine firstIdx?_eq_none_iff.mpr ?_
      intro x hx
      simp only [dirPred, decide_eq_false_iff_not, not_le]
      exact hall x hx
    unfold find_nearest_value
    rw [if_neg hne, hnone]
  · intro h0
    unfold find_nearest_value
    rw [if_neg hne, h0]
  · intro i hi
    constructor
    · intro hlt
      unfold find_nearest_value
      rw [if_neg hne, hi]
      simp only []
      rw [if_pos hlt]
    · intro hle
      unfold find_nearest_value
      rw [if_neg hne, hi]
      simp only []
      rw [if_neg (not_lt.mpr hle)]

/-- C2 witness: on the staircase series, a target above the maximum clamps
to the last sample going up, and a target below the minimum falls back to
the first sample going down. -/
theorem C2_witness :
    find_nearest_value demoS 200 .speed .up = some (10, 100, 100) ∧
    find_nearest_value demoS (-1) .speed .down = some (0, 0, 0) := by
  have h1 := (C2_nearest_locate demoS (by simp [demoS]) 200 .speed).2.1 (by
    intro s hs
    fin_cases hs <;> norm_num [chVal])
  have h2 := (C2_nearest_locate demoS (by simp [demoS]) (-1) .speed).2.2.1 (by
    intro s hs
    fin_cases hs <;> norm_num [chVal])
  constructor
  · simpa [demoS, d0, chVal] using h1
  · simpa [demoS, d0, chVal] using h2

/-- C4: in the RPM-band measurement both reported boundary vehicle speeds,
and in the distance-from-speed measurement the reported end speed, are
obtained by `np.interp`-style linear interpolation of the speed channel
against the full series at the boundary times, for every value of the
`use_interpolation` flag. -/
theorem C4_derived_speed_lookups :
    (∀ (df : List Row) (rf rt : ℚ) (b : Bool) (r : RpmResult),
      calculate_rpm_acceleration df rf rt b = some r →
        r.start_speed = np_interp r.start_time (speedPts (toWork df)) ∧
        r.end_speed = np_interp r.end_time (speedPts (toWork df))) ∧
    (∀ (df : List Row) (s d : ℚ) (b : Bool) (r : DistResult),
      calculate_distance_time df s d b = some r →
        r.end_speed = np_interp r.end_time (speedPts (toWork df))) := by
  constructor
  · intro df rf rt b r h
    unfold calculate_rpm_acceleration at h
    simp only [] at h
    split at h
    · exact absurd h (by simp)
    · split at h
      · exact absurd h (by simp)
      · split at h
        · exact absurd h (by simp)
        · split at h
          · exact absurd h (by simp)
          · obtain rfl := Option.some.inj h
            exact ⟨rfl, rfl⟩
  · intro df s d b r h
    unfold calculate_distance_time at h
    simp only [] at h
    split at h
    · exact absurd h (by simp)
    · split at h
      · exact absurd h (by simp)
      · split at h
        · exact absurd h (by simp)
        · exact absurd h (by simp)
        · obtain rfl := Option.some.inj h
          rfl

/-- C4 witness: a concrete RPM-band run on the linear demo series reports
boundary speeds equal to the linear interpolation of the speed channel at the
boundary times. -/
theorem C4_witness :
    calculate_rpm_acceleration linDf 1000 2000 true = some linRpmRes ∧
    linRpmRes.start_speed = np_interp linRpmRes.start_time (speedPts (toWork linDf)) := by
  have h : calculate_rpm_acceleration linDf 1000 2000 true = some linRpmRes := by
    norm_num [calculate_rpm_acceleration, locate, find_crossing_time_with_interpolation,
      firstIdx?, dirPred, chVal, interpStep, toWork, linDf, suffixOf, sliceOf,
      List.filter_cons, segDists, cumFrom, cumOf, trap, np_interp, speedPts,
      d0, linRpmRes, List.cons_ne_nil]
  exact ⟨h, (C4_derived_speed_lookups.1 linDf 1000 2000 true linRpmRes h).1⟩

/-- Concrete evaluation of the interpolated 36→72 km/h measurement on the
linear demo series, shared by several witnesses. -/
theorem linDf_speed_run :
    calculate_speed_acceleration linDf 36 72 true = some linSpeedRes := by
  norm_num [calculate_speed_acceleration, locate, find_crossing_time_with_interpolation,
    firstIdx?, dirPred, chVal, interpStep, toWork, linDf, suffixOf, sliceOf,
    List.filter_cons, segDists, cumFrom, cumOf, trap, d0, linSpeedRes,
    List.cons_ne_nil]

/-- C5: whenever the threshold-to-threshold speed measurement returns a
result, its distance is the trapezoidal sum over the inclusive
`[startTime, endTime]` slice with speeds converted from km/h to m/s by
dividing by 3.6, and that slice has at least two samples; for
`speed_kmh(t) = 36 t` the 36→72 km/h measurement yields elapsed time 1 s,
average acceleration 10 m/s² and distance 15 m. -/
theorem C5_trapezoid_distance :
    (∀ (df : List Row) (f t : ℚ) (b : Bool) (r : SpeedResult),
      calculate_speed_acceleration df f t b = some r →
        r.distance = trap (sliceOf (toWork df) r.start_time r.end_time) ∧
        2 ≤ (sliceOf (toWork df) r.start_time r.end_time).length) ∧
    calculate_speed_acceleration linDf 36 72 true = some linSpeedRes := by
  constructor
  · intro df f t b r h
    unfold calculate_speed_acceleration at h
    simp only [] at h
    split at h
    · exact absurd h (by simp)
    · split at h
      · exact absurd h (by simp)
      · split at h
        · exact absurd h (by simp)
        · split at h
          · exact absurd h (by simp)
          · rename_i hlen
            obtain rfl := Option.some.inj h
            refine ⟨rfl, ?_⟩
            simp only []
            omega
  · exact linDf_speed_run

/-- C5 witness: the concrete 36→72 km/h run satisfies the trapezoid-distance
characterisation. -/
theorem C5_witness :
    linSpeedRes.distance =
      trap (sliceOf (toWork linDf) linSpeedRes.start_time linSpeedRes.end_time) ∧
    2 ≤ (sliceOf (toWork linDf) linSpeedRes.start_time linSpeedRes.end_time).length :=
  C5_trapezoid_distance.1 linDf 36 72 true linSpeedRes linDf_speed_run

/-- C7: in the threshold-to-threshold measurements, when `use_interpolation`
is true the reported boundary-channel values are the requested fromValue and
toValue; when it is false they are the `valueAfter` components of the two
nearest-sample locator calls. -/
theorem C7_reported_boundary_values :
    (∀ (df : List Row) (f t : ℚ) (r : SpeedResult),
      calculate_speed_acceleration df f t true = some r →
        r.start_speed = f ∧ r.end_speed = t) ∧
    (∀ (df : List Row) (f t : ℚ) (r : RpmResult),
      calculate_rpm_acceleration df f t true = some r →
        r.start_rpm = f ∧ r.end_rpm = t) ∧
    (∀ (df : List Row) (f t : ℚ) (r : SpeedResult),
      calculate_speed_acceleration df f t false = some r →
        ∃ st sb sa, find_nearest_value (toWork df) f .speed .up = some (st, sb, sa) ∧
          r.start_speed = sa ∧
          ∃ et eb ea, find_nearest_value (suffixOf (toWork df) st) t .speed .up =
              some (et, eb, ea) ∧ r.end_speed = ea) ∧
    (∀ (df : List Row) (f t : ℚ) (r : RpmResult),
      calculate_rpm_acceleration df f t false = some r →
        ∃ st sb sa, find_nearest_value (toWork df) f .rpm .up = some (st, sb, sa) ∧
          r.start_rpm = sa ∧
          ∃ et eb ea, find_nearest_value (suffixOf (toWork df) st) t .rpm .up =
              some (et, eb, ea) ∧ r.end_rpm = ea) := by
  refine ⟨?_, ?_, ?_, ?_⟩
  · intro df f t r h
    unfold calculate_speed_acceleration at h
    simp only [] at h
    split at h
    · exact absurd h (by simp)
    · split at h
      · exact absurd h (by simp)
      · split at h
        · exact absurd h (by simp)
        · split at h
          · exact absurd h (by simp)
          · obtain rfl := Option.some.inj h
            exact ⟨rfl, rfl⟩
  · intro df f t r h
    unfold calculate_rpm_acceleration at h
    simp only [] at h
    split at h
    · exact absurd h (by simp)
    · split at h
      · exact absurd h (by simp)
      · split at h
        · exact absurd h (by simp)
        · split at h
          · exact absurd h (by simp)
          · obtain rfl := Option.some.inj h
            exact ⟨rfl, rfl⟩
  · intro df f t r h
    unfold calculate_speed_acceleration at h
    simp only [] at h
    split at h
    · exact absurd h (by simp)
    · rename_i st sb sa heq1
      split at h
      · exact absurd h (by simp)
      · split at h
        · exact absurd h (by simp)
        · rename_i et eb ea heq2
          split at h
          · exact absurd h (by simp)
          · obtain rfl := Option.some.inj h
            exact ⟨st, sb, sa, heq1, rfl, et, eb, ea, heq2, rfl⟩
  · intro df f t r h
    unfold calculate_rpm_acceleration at h
    simp only [] at h
    split at h
    · exact absurd h (by simp)
    · rename_i st sb sa heq1
      split at h
      · exact absurd h (by simp)
      · split at h
        · exact absurd h (by simp)
        · rename_i et eb ea heq2
          split at h
          · exact absurd h (by simp)
          · obtain rfl := Option.some.inj h
            exact ⟨st, sb, sa, heq1, rfl, et, eb, ea, heq2, rfl⟩

/-- C7 witness: the concrete interpolated 36→72 km/h run reports exactly the
requested boundary speeds. -/
theorem C7_witness :
    linSpeedRes.start_speed = 36 ∧ linSpeedRes.end_speed = 72 :=
  C7_reported_boundary_values.1 linDf 36 72 linSpeedRes linDf_speed_run

/-- C6: the distance-from-speed measurement returns NotFound exactly when the
start crossing is not found, or the suffix at/after the start time has fewer
than two samples, or no cumulative distance reaches the target, or the first
cumulative entry reaching the target is at index 0. -/
theorem C6_distance_notfound_iff :
    ∀ (df : List Row) (s d : ℚ) (b : Bool),
      calculate_distance_time df s d b = none ↔
        locate b (toWork df) s .speed .up = none ∨
        ∃ st sb sa, locate b (toWork df) s .speed .up = some (st, sb, sa) ∧
          ((suffixOf (toWork df) st).length < 2 ∨
           firstIdx? (fun x => decide (d ≤ x)) (cumOf (suffixOf (toWork df) st)) = none ∨
           firstIdx? (fun x => decide (d ≤ x)) (cumOf (suffixOf (toWork df) st)) = some 0) := by
  intro df s d b
  constructor
  · intro h
    unfold calculate_distance_time at h
    simp only [] at h
    split at h
    · rename_i heq
      exact Or.inl heq
    · rename_i st sb sa heq
      right
      refine ⟨st, sb, sa, heq, ?_⟩
      split at h
      · rename_i hlen
        exact Or.inl hlen
      · split at h
        · rename_i hf
          exact Or.inr (Or.inl hf)
        · rename_i hf
          exact Or.inr (Or.inr hf)
        · exact absurd h (by simp)
  · intro hcase
    unfold calculate_distance_time
    simp only []
    rcases hcase with hnone | ⟨st, sb, sa, heq, hrest⟩
    · rw [hnone]
    · rw [heq]
      simp only []
      by_cases hlen : (suffixOf (toWork df) st).length < 2
      · rw [if_pos hlen]
      · rw [if_neg hlen]
        rcases hrest with h2 | hf | hf
        · exact absurd h2 hlen
        · rw [hf]
        · rw [hf]

/-- C6 witness: a start speed above the series maximum makes the start
crossing fail, and the measurement returns NotFound. -/
theorem C6_witness : calculate_distance_time linDf 999999 5 true = none :=
  (C6_distance_notfound_iff linDf 999999 5 true).mpr (Or.inl (by
    norm_num [locate, find_crossing_time_with_interpolation, firstIdx?,
      dirPred, chVal, toWork, linDf, d0]))

/-- C8: both interpolation steps are guarded against a zero denominator —
equal bracketing values return the before-sample time (and value) without
dividing — and at every reachable division site the denominator is provably
nonzero. -/
theorem C8_interpolation_guards :
    (∀ target tb vb ta va : ℚ, vb = va → interpStep target tb vb ta va = (tb, vb, va)) ∧
    (∀ target db da tb ta : ℚ, db = da → distInterpTime target db da tb ta = tb) ∧
    (∀ (df : List Samp) (target : ℚ) (ch : Channel) (i : ℕ),
      firstIdx? (dirPred .up target ch) df = some (i + 1) →
        chVal ch (df.getD (i + 1) d0) - chVal ch (df.getD i d0) ≠ 0) ∧
    (∀ (df : List Samp) (target : ℚ) (ch : Channel) (i : ℕ),
      firstIdx? (dirPred .down target ch) df = some (i + 1) →
        chVal ch (df.getD (i + 1) d0) - chVal ch (df.getD i d0) ≠ 0) ∧
    (∀ (d : ℚ) (l : List ℚ) (i : ℕ),
      firstIdx? (fun x => decide (d ≤ x)) l = some (i + 1) →
        l.getD (i + 1) 0 - l.getD i 0 ≠ 0) := by
  refine ⟨?_, ?_, ?_, ?_, ?_⟩
  · intro target tb vb ta va hv
    subst hv
    simp [interpStep]
  · intro target db da tb ta hd
    subst hd
    simp [distInterpTime]
  · intro df target ch i hi
    obtain ⟨hlt, hge⟩ := crossing_bracket_lt hi
    exact sub_ne_zero_of_ne (ne_of_gt (lt_of_lt_of_le hlt hge))
  · intro df target ch i hi
    have hb := firstIdx?_min d0 hi (Nat.lt_succ_self i)
    have ha := firstIdx?_sat d0 hi
    simp only [dirPred, decide_eq_true_eq] at ha
    simp only [dirPred, decide_eq_false_iff_not, not_le] at hb
    exact sub_ne_zero_of_ne (ne_of_lt (lt_of_le_of_lt ha hb))
  · intro d l i hi
    have hb := firstIdx?_min 0 hi (Nat.lt_succ_self i)
    have ha := firstIdx?_sat 0 hi
    simp only [decide_eq_true_eq] at ha
    simp only [decide_eq_false_iff_not, not_le] at hb
    exact sub_ne_zero_of_ne (ne_of_gt (lt_of_lt_of_le hb ha))

/-- C8 witness: concrete degenerate intervals fall back to the before-sample
time without dividing. -/
theorem C8_witness :
    interpStep 5 1 3 2 3 = (1, 3, 3) ∧ distInterpTime 7 4 4 9 10 = 9 :=
  ⟨C8_interpolation_guards.1 5 1 3 2 3 rfl,
   C8_interpolation_guards.2.1 7 4 4 9 10 rfl⟩

theorem distInterpTime_ge {d db da tb ta c : ℚ} (htb : c ≤ tb) (hta : tb ≤ ta)
    (hdb : db < d) (hda : d ≤ da) : c ≤ distInterpTime d db da tb ta := by
  unfold distInterpTime
  split
  · exact htb
  · have h2 : 0 < da - db := by linarith
    have hn : 0 ≤ (d - db) / (da - db) := div_nonneg (by linarith) (le_of_lt h2)
    have hm : 0 ≤ (d - db) / (da - db) * (ta - tb) := mul_nonneg hn (by linarith)
    linarith

/-- C10: on a time-monotonic input series, every result returned by the three
measurement functions has `end_time` at or after `start_time`, so the reported
elapsed time is nonnegative. -/
theorem C10_end_after_start :
    ∀ df : List Row, df.Pairwise (fun a b => a.timeMs ≤ b.timeMs) →
      (∀ (f t : ℚ) (b : Bool) (r : SpeedResult),
        calculate_speed_acceleration df f t b = some r →
          r.start_time ≤ r.end_time ∧ 0 ≤ r.time) ∧
      (∀ (f t : ℚ) (b : Bool) (r : RpmResult),
        calculate_rpm_acceleration df f t b = some r →
          r.start_time ≤ r.end_time ∧ 0 ≤ r.time) ∧
      (∀ (s d : ℚ) (b : Bool) (r : DistResult),
        calculate_distance_time df s d b = some r →
          r.start_time ≤ r.end_time ∧ 0 ≤ r.time) := by
  intro df hs
  have hws : (toWork df).Pairwise (fun a b => a.time ≤ b.time) := toWork_pairwise hs
  refine ⟨?_, ?_, ?_⟩
  · intro f t b r h
    unfold calculate_speed_acceleration at h
    simp only [] at h
    split at h
    · exact absurd h (by simp)
    · rename_i st sb sa heq1
      split at h
      · exact absurd h (by simp)
      · split at h
        · exact absurd h (by simp)
        · rename_i et eb ea heq2
          split at h
          · exact absurd h (by simp)
          · obtain rfl := Option.some.inj h
            have hge : st ≤ et :=
              locate_up_ge b (fun x hx => mem_suffixOf_time_ge hx)
                (suffixOf_pairwise st hws) heq2
            refine ⟨hge, ?_⟩
            show (0 : ℚ) ≤ et - st
            linarith
  · intro f t b r h
    unfold calculate_rpm_acceleration at h
    simp only [] at h
    split at h
    · exact absurd h (by simp)
    · rename_i st sb sa heq1
      split at h
      · exact absurd h (by simp)
      · split at h
        · exact absurd h (by simp)
        · rename_i et eb ea heq2
          split at h
          · exact absurd h (by simp)
          · obtain rfl := Option.some.inj h
            have hge : st ≤ et :=
              locate_up_ge b (fun x hx => mem_suffixOf_time_ge hx)
                (suffixOf_pairwise st hws) heq2
            refine ⟨hge, ?_⟩
            show (0 : ℚ) ≤ et - st
            linarith
  · intro s d b r h
    unfold calculate_distance_time at h
    simp only [] at h
    split at h
    · exact absurd h (by simp)
    · rename_i st sb sa heq1
      split at h
      · exact absurd h (by simp)
      · rename_i hlen
        split at h
        · exact absurd h (by simp)
        · exact absurd h (by simp)
        · rename_i i hf
          obtain rfl := Option.some.inj h
          have hi1 : i + 1 < (cumOf (suffixOf (toWork df) st)).length :=
            firstIdx?_lt_length hf
          have hcl : (cumOf (suffixOf (toWork df) st)).length =
              (suffixOf (toWork df) st).length - 1 := cumOf_length _
          have hi2 : i + 2 < (suffixOf (toWork df) st).length := by omega
          have hi1s : i + 1 < (suffixOf (toWork df) st).length := by omega
          have htb : st ≤ ((suffixOf (toWork df) st).getD (i + 1) d0).time :=
            mem_suffixOf_time_ge (getD_mem hi1s d0)
          have hta : ((suffixOf (toWork df) st).getD (i + 1) d0).time ≤
              ((suffixOf (toWork df) st).getD (i + 2) d0).time :=
            pairwise_time_getD (suffixOf_pairwise st hws) (by omega) hi2
          have hdb : (cumOf (suffixOf (toWork df) st)).getD i 0 < d := by
            have hmin := firstIdx?_min 0 hf (Nat.lt_succ_self i)
            simpa [decide_eq_false_iff_not, not_le] using hmin
          have hda : d ≤ (cumOf (suffixOf (toWork df) st)).getD (i + 1) 0 := by
            have hsat := firstIdx?_sat 0 hf
            simpa using hsat
          have hge : st ≤ distInterpTime d ((cumOf (suffixOf (toWork df) st)).getD i 0)
              ((cumOf (suffixOf (toWork df) st)).getD (i + 1) 0)
              ((suffixOf (toWork df) st).getD (i + 1) d0).time
              ((suffixOf (toWork df) st).getD (i + 2) d0).time :=
            distInterpTime_ge htb hta hdb hda
          refine ⟨hge, ?_⟩
          show (0 : ℚ) ≤ _ - st
          linarith

/-- C10 witness: the concrete interpolated 36→72 km/h run on the sorted linear
demo series has `start_time ≤ end_time`. -/
theorem C10_witness :
    calculate_speed_acceleration linDf 36 72 true = some linSpeedRes ∧
    linSpeedRes.start_time ≤ linSpeedRes.end_time := by
  have hsort : linDf.Pairwise (fun a b => a.timeMs ≤ b.timeMs) := by
    norm_num [linDf, List.pairwise_cons]
  exact ⟨linDf_speed_run,
    ((C10_end_after_start linDf hsort).1 36 72 true linSpeedRes linDf_speed_run).1⟩

end SpeedSL
